import Mathlib

/-!
Verification of the LoRa parameter-selection simulations (ns-3 scratch programs).

The definitions below are shallow embeddings of the C++ source files
`d-lora-simulation.cc`, `lora-ucb1-simulation.cc`, `lorawan_qoca_simulation.cc`
and `tow-lorawan-simulation.cc`.  C++ `double` arithmetic is modelled by exact
rational (`ℚ`) or real (`ℝ`) arithmetic; machine integers by `ℕ`/`ℤ`.
-/

/-! ## Time on air (`CalculateToA`, d-lora-simulation.cc lines 117-142)

Embeds the C++ function line by line: symbol duration `2^SF / BW`, preamble
`(8 + 4.25) * T_sym`, payload symbol count
`8 + max(ceil((8*PS - 4*SF + 28 + 16*CRC - 20*H) / (4*(SF - 2*DE))) * (CR+4), 0)`
with `CRC = 1`, `H = 0`, `DE = 0`, `CR = 1`. -/
def calculateToA (sf : ℕ) (bw : ℚ) (payloadSize : ℕ) : ℚ :=
  let symbolDuration : ℚ := 2 ^ sf / bw
  let npre : ℚ := 8
  let preambleDuration : ℚ := (npre + 4.25) * symbolDuration
  let PS : ℚ := payloadSize
  let CRC : ℚ := 1
  let H : ℚ := 0
  let DE : ℚ := 0
  let CR : ℚ := 1
  let term1 : ℚ := 8 * PS - 4 * (sf : ℚ) + 28 + 16 * CRC - 20 * H
  let term2 : ℚ := 4 * ((sf : ℚ) - 2 * DE)
  let npay : ℚ := 8 + max ((⌈term1 / term2⌉ : ℚ) * (CR + 4)) 0
  let payloadDuration : ℚ := npay * symbolDuration
  preambleDuration + payloadDuration

/-- The closed form stated by the specification: `preambleDuration +
payloadSymbolCount * symbolDuration` with `symbolDuration = 2^SF / BW`,
`preambleDuration = (8 + 4.25) * symbolDuration` and `payloadSymbolCount =
8 + max(0, ceil((8*PS - 4*SF + 28 + 16*1 - 20*0) / (4*(SF - 2*0))) * (1+4))`.
Written from the spec's words, to be compared with `calculateToA`. -/
def timeOnAirSpec (sf : ℕ) (bw : ℚ) (payloadSize : ℕ) : ℚ :=
  let symbolDuration : ℚ := 2 ^ sf / bw
  let preambleDuration : ℚ := (8 + 4.25) * symbolDuration
  let payloadSymbolCount : ℚ :=
    8 + max 0 ((⌈(8 * (payloadSize : ℚ) - 4 * (sf : ℚ) + 28 + 16 * 1 - 20 * 0) /
      (4 * ((sf : ℚ) - 2 * 0))⌉ : ℚ) * (1 + 4))
  preambleDuration + payloadSymbolCount * symbolDuration

/-! ## ADR-Lite ladder (lora-ucb1-simulation.cc, constructor lines 168-186 and
`SelectTransmissionParametersADRLite` lines 350-372) -/

/-- Channel order used to build the ADR-Lite ladder (worst channels first):
`{920.6, 922.2, 921.0, 921.4, 921.8}` MHz. -/
def adrChannelsOrdered : List ℚ := [920.6, 922.2, 921.0, 921.4, 921.8]

/-- Transmission powers in increasing order: `{-3, 1, 5, 9, 13}` dBm. -/
def adrTpsOrdered : List ℤ := [-3, 1, 5, 9, 13]

/-- The ADR-Lite parameter ladder: for each power (outer loop) and each channel
(inner loop) push `(channel, power)`, exactly as the constructor does. -/
def adrParameterList : List (ℚ × ℤ) :=
  adrTpsOrdered.flatMap fun tp => adrChannelsOrdered.map fun ch => (ch, tp)

/-- The initial ADR-Lite index: the last entry of the ladder. -/
def adrInitIndex : ℕ := adrParameterList.length - 1

/-- One ADR-Lite index update, from `SelectTransmissionParametersADRLite`:
on success `m_adrIndex = max(0, m_adrIndex / 2)`, on failure
`m_adrIndex = min(size - 1, (m_adrIndex + size) / 2)` (integer division;
the index is always nonnegative, so `ℕ` division matches the C++ `int`
division). -/
def adrStep (listLen : ℕ) (idx : ℕ) (success : Bool) : ℕ :=
  if success then max 0 (idx / 2) else min (listLen - 1) ((idx + listLen) / 2)

/-- The index reached after a sequence of transmission outcomes, starting from
the last ladder entry. -/
def adrRun (outcomes : List Bool) : ℕ :=
  outcomes.foldl (adrStep adrParameterList.length) adrInitIndex

/-! ## ToW penalty (`ToWAlgorithm::CalculatePenalty`,
tow-lorawan-simulation.cc lines 338-358) -/

/-- The per-arm "probabilities" vector built by `CalculatePenalty`: for each arm
`i`, `R[i]/N[i]` when `N[i] > 0`, and `0.0` otherwise (arms without data are
pushed as rate 0). -/
def probabilities (N R : List ℕ) : List ℚ :=
  (N.zip R).map fun p => if 0 < p.1 then (p.2 : ℚ) / (p.1 : ℚ) else 0

/-- Insert a value into a descending-sorted list, keeping it descending. -/
def insertDesc (x : ℚ) : List ℚ → List ℚ
  | [] => [x]
  | y :: ys => if y ≤ x then x :: y :: ys else y :: insertDesc x ys

/-- Sort a list of rationals in descending order (models
`std::sort(probabilities.rbegin(), probabilities.rend())`; the output is the
unique descending arrangement of the multiset, so the choice of sorting
algorithm is irrelevant). -/
def sortDesc : List ℚ → List ℚ
  | [] => []
  | x :: xs => insertDesc x (sortDesc xs)

/-- `ToWAlgorithm::CalculatePenalty`: build the rates vector, return the fixed
constant `0.1` when it has fewer than two entries, otherwise sort descending,
take the two leading entries `p1, p2`, return `0.1` if they are equal and
`(p1 + p2)/2 - (p1 - p2)` otherwise. -/
def calculatePenalty (N R : List ℕ) : ℚ :=
  let probs := probabilities N R
  if probs.length < 2 then 1 / 10
  else
    let sorted := sortDesc probs
    let p1 := sorted.getD 0 0
    let p2 := sorted.getD 1 0
    if p1 = p2 then 1 / 10 else (p1 + p2) / 2 - (p1 - p2)

/-! ## Run-level averages guarded against empty denominators
(d-lora-simulation.cc main, lines 1006-1013; `ToWAlgorithm::GetPDR`,
tow-lorawan-simulation.cc lines 361-368) -/

/-- `pdr = (sent > 0) ? received / sent * 100 : 0`. -/
def dloraPDR (sent received : ℚ) : ℚ :=
  if 0 < sent then received / sent * 100 else 0

/-- `ee = (energy > 0) ? data * 8 / energy : 0`. -/
def dloraEnergyEfficiency (energy data : ℚ) : ℚ :=
  if 0 < energy then data * 8 / energy else 0

/-- `avgToA = (sent > 0) ? toa / sent * 1000 : 0`. -/
def dloraAvgToA (sent toa : ℚ) : ℚ :=
  if 0 < sent then toa / sent * 1000 else 0

/-- `avgRSSI = (measurements > 0) ? total / measurements : 0`. -/
def dloraAvgRSSI (measurements : ℕ) (total : ℚ) : ℚ :=
  if 0 < measurements then total / (measurements : ℚ) else 0

/-- `avgSNR = (measurements > 0) ? total / measurements : 0`. -/
def dloraAvgSNR (measurements : ℕ) (total : ℚ) : ℚ :=
  if 0 < measurements then total / (measurements : ℚ) else 0

/-- `ToWAlgorithm::GetPDR`: `0` when the device has no recorded transmissions,
otherwise `successfulTransmissions / totalTransmissions`. -/
def towGetPDR (totalTransmissions successfulTransmissions : ℕ) : ℚ :=
  if totalTransmissions = 0 then 0
  else (successfulTransmissions : ℚ) / (totalTransmissions : ℚ)

/-! ## Gateway reception (`LoRaGateway::ReceiveTransmission`,
lora-ucb1-simulation.cc lines 428-467) -/

/-- The three channels the gateway can receive (`g_receivableChannels`). -/
def gReceivableChannels : List ℚ := [921.0, 921.4, 921.8]

/-- A channel is receivable when within `0.001` MHz of some receivable
channel. -/
def channelReceivable (receivable : List ℚ) (channel : ℚ) : Bool :=
  receivable.any fun rc => |channel - rc| < 0.001

/-- The Bernoulli success probability computed by `ReceiveTransmission`:
`base = 0.87 + (tp + 3) * 0.02`, `densityFactor = max(0.65, 1 - (numDevices -
10) * 0.006)`, `channelBonus = 1.05` when the channel matches a globally
receivable channel (else `1.0`), `powerBonus = 1 + (tp - (-3)) * 0.01`, and the
product clamped by `min(0.98, max(0.2, ...))`. -/
def successProbability (numDevices : ℤ) (channel : ℚ) (tp : ℤ) : ℚ :=
  let baseProbability : ℚ := 0.87 + ((tp : ℚ) + 3) * 0.02
  let densityFactor : ℚ := max 0.65 (1 - ((numDevices : ℚ) - 10) * 0.006)
  let channelBonus : ℚ := if channelReceivable gReceivableChannels channel then 1.05 else 1.0
  let powerBonus : ℚ := 1 + ((tp : ℚ) - (-3)) * 0.01
  min 0.98 (max 0.2 (baseProbability * densityFactor * channelBonus * powerBonus))

/-- `ReceiveTransmission`, with the gateway's uniform random draw `u` passed in
explicitly: `false` when the channel is not receivable, otherwise the Bernoulli
comparison `u < successProbability`. -/
def receiveTransmission (receivable : List ℚ) (numDevices : ℤ) (channel : ℚ)
    (tp : ℤ) (u : ℚ) : Bool :=
  if ¬ channelReceivable receivable channel then false
  else u < successProbability numDevices channel tp

/-! ## Algorithm-name dispatch (d-lora-simulation.cc main lines 954-995;
lora-ucb1-simulation.cc constructor lines 148-187 and `SelectAndTransmit`
lines 374-407) -/

/-- The algorithm names `d-lora-simulation.cc`'s per-node construction loop
accepts; any other name hits `NS_FATAL_ERROR` before `Simulator::Run`. -/
def dloraKnownAlgorithms : List String :=
  ["DLoRa", "DLoRa-PDR", "DLoRa-EE", "DLoRa-TH", "Random", "RoundRobin", "ADR", "RSLoRa"]

/-- The part of d-lora's `main` that depends on the algorithm name and runs
before `Simulator::Run`: the per-node loop instantiates the chosen algorithm
and raises a fatal configuration error on an unknown name (on the first
iteration, hence only when at least one node exists). -/
def dloraSetup (algorithm : String) (numNodes : ℕ) : Except String Unit :=
  if numNodes = 0 then Except.ok ()
  else if algorithm ∈ dloraKnownAlgorithms then Except.ok ()
  else Except.error ("Unknown algorithm: " ++ algorithm)

/-- The algorithm-name-dependent state installed by the `LoRaDevice`
constructor of lora-ucb1-simulation.cc. -/
structure LoRaDeviceState where
  deviceId : ℕ
  algorithm : String
  epsilon : ℚ
  adrList : List (ℚ × ℤ)
  adrIndex : ℕ
  currentTransmissionRound : ℕ
  deriving Repr

/-- The `LoRaDevice` constructor: stores the name unchecked, sets `ε = 0.1`,
and builds the ADR ladder (starting at its last entry) only for `"ADR-Lite"`.
No algorithm-name validation happens here. -/
def loRaDeviceInit (deviceId : ℕ) (algorithm : String) : LoRaDeviceState :=
  { deviceId := deviceId
    algorithm := algorithm
    epsilon := 0.1
    adrList := if algorithm = "ADR-Lite" then adrParameterList else []
    adrIndex := if algorithm = "ADR-Lite" then adrParameterList.length - 1 else 0
    currentTransmissionRound := 0 }

/-- Everything lora-ucb1-simulation.cc executes before `Simulator::Run` that
depends on the algorithm name: each device is constructed via the unchecked
constructor, so setup succeeds for every name. -/
def ucb1Setup (algorithm : String) (numDevices : ℕ) : Except String (List LoRaDeviceState) :=
  Except.ok ((List.range numDevices).map fun i => loRaDeviceInit i algorithm)

/-- The four selection routines `SelectAndTransmit` can dispatch to. -/
inductive UCB1Selector where
  | ucb1Tuned
  | epsilonGreedy
  | adrLite
  | fixed
  deriving DecidableEq, Repr

/-- The algorithm dispatch inside `LoRaDevice::SelectAndTransmit`: the if/else
chain over the name, ending in `NS_FATAL_ERROR("Algorithme inconnu: ...")`.
This code runs inside the first decision cycle, after the simulation has
started. -/
def ucb1SelectDispatch (algorithm : String) : Except String UCB1Selector :=
  if algorithm = "UCB1-tuned" then Except.ok UCB1Selector.ucb1Tuned
  else if algorithm = "Epsilon-Greedy" then Except.ok UCB1Selector.epsilonGreedy
  else if algorithm = "ADR-Lite" then Except.ok UCB1Selector.adrLite
  else if algorithm = "Fixed" then Except.ok UCB1Selector.fixed
  else Except.error ("Algorithme inconnu: " ++ algorithm)

/-! ## D-LoRa per-dimension UCB1 selection (`DLoRaAgent::SelectArm`,
d-lora-simulation.cc lines 303-335) -/

/-- `std::numeric_limits<double>::max()` = `(2^53 - 1) * 2^971`, the sentinel
score given to a never-selected arm. -/
noncomputable def dblMax : ℝ := ((2 : ℝ) ^ 53 - 1) * 2 ^ 971

/-- The UCB score of a tried arm:
`expectedRewards[arm] + C_WEIGHT_FACTOR * sqrt(log(totalSelections + 1) /
(2.0 * numSelections[arm]))` with `C_WEIGHT_FACTOR = 2.0`. -/
noncomputable def ucbScore {α : Type} (rewards : α → ℝ) (counts : α → ℕ)
    (total : ℕ) (a : α) : ℝ :=
  rewards a + 2 * Real.sqrt (Real.log ((total : ℝ) + 1) / (2 * (counts a : ℝ)))

/-- The value compared inside the selection loop: `DBL_MAX` for a
never-selected arm, the UCB score otherwise. -/
noncomputable def ucbValue {α : Type} (rewards : α → ℝ) (counts : α → ℕ)
    (total : ℕ) (a : α) : ℝ :=
  if counts a = 0 then dblMax else ucbScore rewards counts total a

open scoped Classical in
/-- The selection loop of `SelectArm`: running best arm and running maximum,
updated on a strict improvement (`ucbValue > maxUCB`). -/
noncomputable def selectArmAux {α : Type} (score : α → ℝ) :
    List α → α → ℝ → α
  | [], best, _ => best
  | a :: rest, best, maxUCB =>
    if score a > maxUCB then selectArmAux score rest a (score a)
    else selectArmAux score rest best maxUCB

/-- `DLoRaAgent::SelectArm`: `totalSelections` is the sum of the selection
counts over the arm set, `maxUCB` starts at `-1.0`, `selectedArm` starts at
`armSet[0]`, and the loop scans the arm set in order. -/
noncomputable def selectArm {α : Type} [Inhabited α] (rewards : α → ℝ)
    (counts : α → ℕ) (armSet : List α) : α :=
  selectArmAux (ucbValue rewards counts ((armSet.map counts).sum))
    armSet (armSet.headD default) (-1)

/-! ## QoC-A / DQoC-A channel selection (`BanditAlgorithm`,
lorawan_qoca_simulation.cc lines 23-354)

The policy state reached by a run is determined by the update history: each
`UpdateReward(channel, reward, quality)` appends to `m_rewards[channel]`,
`m_qualities[channel]` and `m_channelHistory`, increments `m_T_i[channel]`,
and recomputes the empirical means.  We therefore embed the reachable state as
the list of update events `(channel, reward, quality)` in order, and define
each statistic the C++ code stores or recomputes as a function of that list.
In particular the paired traversal of `m_channelHistory` and
`m_rewards[i]`/`m_qualities[i]` inside `SelectChannelDQoCA` (which advances
`reward_idx` once per occurrence of channel `i`) matches the j-th occurrence of
`i` in the history with the value recorded by the j-th update of channel `i`,
which is exactly the event list's own pairing. -/

/-- One recorded update: selected channel, observed reward, observed channel
quality. -/
def QEvent : Type := ℕ × ℝ × ℝ

/-- `m_T_i[i]`: how many updates selected channel `i`. -/
def timesSelected (events : List QEvent) (i : ℕ) : ℕ :=
  (events.filter fun e => e.1 = i).length

/-- Sum of the rewards recorded for channel `i` (`m_rewards[i]` summed). -/
noncomputable def rewardSum (i : ℕ) : List QEvent → ℝ
  | [] => 0
  | e :: rest => (if e.1 = i then e.2.1 else 0) + rewardSum i rest

/-- Sum of the qualities recorded for channel `i` (`m_qualities[i]` summed). -/
noncomputable def qualitySum (i : ℕ) : List QEvent → ℝ
  | [] => 0
  | e :: rest => (if e.1 = i then e.2.2 else 0) + qualitySum i rest

/-- `m_R_i[i]` as maintained by `UpdateEmpiricalMeans`: `0` before any
selection of `i`, else the running mean of its rewards. -/
noncomputable def meanReward (events : List QEvent) (i : ℕ) : ℝ :=
  if timesSelected events i = 0 then 0
  else rewardSum i events / (timesSelected events i : ℝ)

/-- `m_G_i[i]` as maintained by `UpdateEmpiricalMeans`. -/
noncomputable def meanQuality (events : List QEvent) (i : ℕ) : ℝ :=
  if timesSelected events i = 0 then 0
  else qualitySum i events / (timesSelected events i : ℝ)

/-- `CalculateGmax` (and the `G_max_disc` loop): running maximum of a
per-channel quantity over channels `0..K-1`, starting from `0.0` and updating
on strict improvement. -/
noncomputable def gMax (K : ℕ) (g : ℕ → ℝ) : ℝ :=
  (List.range K).foldl (fun m i => if g i > m then g i else m) 0

open scoped Classical in
/-- The shared selection loop of `SelectChannelUCB` / `SelectChannelQoCA` /
`SelectChannelDQoCA`: scan channels in order, return the first untried channel
immediately, otherwise track the best score.  `none` models the initial
`maxScore = -infinity` (the first tried channel always wins against it);
`bestChannel` starts at `0`. -/
noncomputable def channelLoop (untried : ℕ → Prop) (score : ℕ → ℝ) :
    List ℕ → Option (ℕ × ℝ) → ℕ
  | [], none => 0
  | [], some (b, _) => b
  | i :: rest, none =>
    if untried i then i
    else channelLoop untried score rest (some (i, score i))
  | i :: rest, some (b, m) =>
    if untried i then i
    else if score i > m then channelLoop untried score rest (some (i, score i))
    else channelLoop untried score rest (some (b, m))

/-- The QoC-A score `B_i(n) = R_i(n) + Q_i(n) + α * sqrt(ln(n) / T_i(n))`
with quality bonus `Q_i(n) = β * (G_i(n)/G_max(n) - 1) * ln(n)/T_i(n)` when
`G_max(n) > 0`, else `0`. -/
noncomputable def qocaScore (K n : ℕ) (alpha beta : ℝ) (events : List QEvent)
    (i : ℕ) : ℝ :=
  let Gm := gMax K (meanQuality events)
  let Q : ℝ := if 0 < Gm then
    beta * (meanQuality events i / Gm - 1) * Real.log (n : ℝ) /
      (timesSelected events i : ℝ)
    else 0
  meanReward events i + Q +
    alpha * Real.sqrt (Real.log (n : ℝ) / (timesSelected events i : ℝ))

/-- `SelectChannelQoCA`: for the first `K` packets return channel `n - 1`
(initialisation), afterwards run the scored loop with the untried-channel
early return. -/
noncomputable def qocaSelect (K n : ℕ) (alpha beta : ℝ)
    (events : List QEvent) : ℕ :=
  if n ≤ K then n - 1
  else channelLoop (fun i => timesSelected events i = 0)
    (qocaScore K n alpha beta events) (List.range K) none

/-- `N_i[i]` (resp. `N_g_i[i]`): discounted selection count of channel `i`,
where the update at distance `k` from the end of the history contributes
`λ^k`. -/
noncomputable def discountedCount (lam : ℝ) (i : ℕ) : List QEvent → ℝ
  | [] => 0
  | e :: rest => (if e.1 = i then lam ^ rest.length else 0) +
      discountedCount lam i rest

/-- Discounted reward sum of channel `i` (the `sum_rewards` accumulator). -/
noncomputable def discountedRewardSum (lam : ℝ) (i : ℕ) : List QEvent → ℝ
  | [] => 0
  | e :: rest => (if e.1 = i then lam ^ rest.length * e.2.1 else 0) +
      discountedRewardSum lam i rest

/-- Discounted quality sum of channel `i` (the `sum_qualities` accumulator,
weighted by `λ_G`). -/
noncomputable def discountedQualitySum (lamG : ℝ) (i : ℕ) : List QEvent → ℝ
  | [] => 0
  | e :: rest => (if e.1 = i then lamG ^ rest.length * e.2.2 else 0) +
      discountedQualitySum lamG i rest

/-- `W(n)`: the total discounted count, summed over channels `0..K-1`. -/
noncomputable def totalDiscountedCount (lam : ℝ) (K : ℕ)
    (events : List QEvent) : ℝ :=
  ∑ i ∈ Finset.range K, discountedCount lam i events

/-- `R_i_disc[i]`: computed only when `N_i[i] > 0` and channel `i` has
recorded rewards, else left `0`. -/
noncomputable def discountedMeanReward (lam : ℝ) (events : List QEvent)
    (i : ℕ) : ℝ :=
  if 0 < discountedCount lam i events ∧ 0 < timesSelected events i then
    discountedRewardSum lam i events / discountedCount lam i events
  else 0

/-- `G_i_disc[i]`: additionally guarded by `N_g_i[i] > 0`. -/
noncomputable def discountedMeanQuality (lam lamG : ℝ) (events : List QEvent)
    (i : ℕ) : ℝ :=
  if 0 < discountedCount lam i events ∧ 0 < timesSelected events i ∧
      0 < discountedCount lamG i events then
    discountedQualitySum lamG i events / discountedCount lamG i events
  else 0

/-- The DQoC-A score
`B_i(n) = R_i_disc + Q_i + α * sqrt(ln(W(n)) / N_i(n))` with
`Q_i = β * (G_i_disc/G_max_disc - 1) * ln(W(n))/N_i(n)` when
`G_max_disc > 0`. -/
noncomputable def dqocaScore (K : ℕ) (alpha beta lam lamG : ℝ)
    (events : List QEvent) (i : ℕ) : ℝ :=
  let W := totalDiscountedCount lam K events
  let Gm := gMax K (discountedMeanQuality lam lamG events)
  let Q : ℝ := if 0 < Gm then
    beta * (discountedMeanQuality lam lamG events i / Gm - 1) *
      Real.log W / discountedCount lam i events
    else 0
  discountedMeanReward lam events i + Q +
    alpha * Real.sqrt (Real.log W / discountedCount lam i events)

/-- `SelectChannelDQoCA`: initialisation phase for `n ≤ K`, then the scored
loop whose untried test is `N_i[i] == 0.0`. -/
noncomputable def dqocaSelect (K n : ℕ) (alpha beta lam lamG : ℝ)
    (events : List QEvent) : ℕ :=
  if n ≤ K then n - 1
  else channelLoop (fun i => discountedCount lam i events = 0)
    (dqocaScore K alpha beta lam lamG events) (List.range K) none

/-- The concrete update history used to separate the QoC-A and DQoC-A
selections at discount factor 1: channel 0 observed reward 0 and quality 1,
then channel 1 observed reward 0.8 and quality 0. -/
noncomputable def qEventsCx : List QEvent := [(0, 0, 1), (1, 4/5, 0)]

/-! ## Plain UCB channel selection (`BanditAlgorithm::SelectChannelUCB`,
lorawan_qoca_simulation.cc lines 115-145) -/

/-- The UCB score `B_i(n) = R_i(n) + α * sqrt(ln(n) / T_i(n))`. -/
noncomputable def ucbChannelScore (n : ℕ) (alpha : ℝ) (events : List QEvent)
    (i : ℕ) : ℝ :=
  meanReward events i + alpha * Real.sqrt (Real.log (n : ℝ) / (timesSelected events i : ℝ))

/-- `SelectChannelUCB`: for the first `K` packets return channel `n - 1`
(initialisation), afterwards scan channels in order, returning the first
never-tried channel immediately and otherwise the best-scoring one. -/
noncomputable def ucbChannelSelect (K n : ℕ) (alpha : ℝ)
    (events : List QEvent) : ℕ :=
  if n ≤ K then n - 1
  else channelLoop (fun i => timesSelected events i = 0)
    (ucbChannelScore n alpha events) (List.range K) none

/-! ## Epsilon-greedy selection
(`LoRaDevice::SelectTransmissionParametersEpsilonGreedy`,
lora-ucb1-simulation.cc lines 312-340) -/

/-- The five channels of lora-ucb1-simulation (`g_channels`). -/
def gChannels : List ℚ := [920.6, 921.0, 921.4, 921.8, 922.2]

/-- The five transmission powers (`g_transmissionPowers`). -/
def gTransmissionPowers : List ℤ := [-3, 1, 5, 9, 13]

open scoped Classical in
/-- The exploitation loop of epsilon-greedy: scan `(channel, tp)` pairs in
order; a pair is considered only when `selectionsCount > 0`, and the running
best mean reward (initialised to `-1.0`, best pair initialised to
`(g_channels[0], g_transmissionPowers[0])`) is updated on strict improvement.
Never-tried pairs are skipped entirely. -/
noncomputable def epsilonGreedyExploitAux (count : ℚ × ℤ → ℕ)
    (rewardsSum : ℚ × ℤ → ℝ) :
    List (ℚ × ℤ) → ℚ × ℤ → ℝ → ℚ × ℤ
  | [], best, _ => best
  | p :: rest, best, bestReward =>
    if 0 < count p then
      if rewardsSum p / (count p : ℝ) > bestReward then
        epsilonGreedyExploitAux count rewardsSum rest p
          (rewardsSum p / (count p : ℝ))
      else epsilonGreedyExploitAux count rewardsSum rest best bestReward
    else epsilonGreedyExploitAux count rewardsSum rest best bestReward

/-- The exploitation branch of epsilon-greedy over all `(channel, tp)`
combinations (channel-major order, as the nested loops iterate). -/
noncomputable def epsilonGreedyExploit (count : ℚ × ℤ → ℕ)
    (rewardsSum : ℚ × ℤ → ℝ) : ℚ × ℤ :=
  epsilonGreedyExploitAux count rewardsSum
    (gChannels.flatMap fun ch => gTransmissionPowers.map fun tp => (ch, tp))
    (gChannels.headD 0, gTransmissionPowers.headD 0) (-1)

/-- `SelectTransmissionParametersEpsilonGreedy`, with the three uniform draws
passed in explicitly: with probability `ε` pick a uniformly random pair
(`static_cast<int>` truncation of `u * size`), otherwise run the exploitation
loop. -/
noncomputable def selectTransmissionParametersEpsilonGreedy
    (epsilon u uch utp : ℚ) (count : ℚ × ℤ → ℕ)
    (rewardsSum : ℚ × ℤ → ℝ) : ℚ × ℤ :=
  if u < epsilon then
    (gChannels.getD (⌊uch * (gChannels.length : ℚ)⌋).toNat 0,
     gTransmissionPowers.getD (⌊utp * (gTransmissionPowers.length : ℚ)⌋).toNat 0)
  else epsilonGreedyExploit count rewardsSum

/-- The epsilon-greedy statistics state used as counterexample: every pair
with transmission power 1 dBm was selected once, all other pairs never. -/
def egCount : ℚ × ℤ → ℕ := fun p => if p.2 = 1 then 1 else 0

lemma selectArmAux_of_all_le {α : Type} (score : α → ℝ) :
    ∀ (l : List α) (best : α) (m : ℝ), (∀ a ∈ l, score a ≤ m) →
      selectArmAux score l best m = best := by
  intro l
  induction l with
  | nil => intro best m _; rfl
  | cons a rest ih =>
    intro best m h
    rw [selectArmAux, if_neg (not_lt.mpr (h a (List.mem_cons_self a rest)))]
    exact ih best m fun b hb => h b (List.mem_cons_of_mem a hb)

/-- The selection loop returns the first arm attaining the maximal score,
whenever some arm strictly beats the initial running maximum. -/
lemma selectArmAux_spec {α : Type} (score : α → ℝ) :
    ∀ (l : List α) (best : α) (m : ℝ), (∃ a ∈ l, m < score a) →
      ∃ l1 r l2, l = l1 ++ r :: l2 ∧ selectArmAux score l best m = r ∧
        m < score r ∧ (∀ b ∈ l1, score b < score r) ∧
        (∀ b ∈ l, score b ≤ score r) := by
  intro l
  induction l with
  | nil =>
    rintro best m ⟨a, ha, -⟩
    exact absurd ha (List.not_mem_nil a)
  | cons a rest ih =>
    intro best m hex
    by_cases hcase : m < score a
    · rw [selectArmAux, if_pos hcase]
      by_cases h2 : ∃ b ∈ rest, score a < score b
      · obtain ⟨l1, r, l2, heq, hres, hmr, hl1, hall⟩ := ih a (score a) h2
        refine ⟨a :: l1, r, l2, by rw [heq, List.cons_append], hres, lt_trans hcase hmr, ?_, ?_⟩
        · intro b hb
          rcases List.mem_cons.1 hb with hb | hb
          · subst hb; exact hmr
          · exact hl1 b hb
        · intro b hb
          rcases List.mem_cons.1 hb with hb | hb
          · subst hb; exact le_of_lt hmr
          · exact hall b (heq ▸ hb)
      · push_neg at h2
        rw [selectArmAux_of_all_le score rest a (score a) h2]
        refine ⟨[], a, rest, rfl, rfl, hcase, ?_, ?_⟩
        · intro b hb; exact absurd hb (List.not_mem_nil b)
        · intro b hb
          rcases List.mem_cons.1 hb with hb | hb
          · subst hb; exact le_refl _
          · exact h2 b hb
    · rw [selectArmAux, if_neg hcase]
      have hex' : ∃ b ∈ rest, m < score b := by
        obtain ⟨x, hx, hmx⟩ := hex
        rcases List.mem_cons.1 hx with hx | hx
        · subst hx; exact absurd hmx hcase
        · exact ⟨x, hx, hmx⟩
      obtain ⟨l1, r, l2, heq, hres, hmr, hl1, hall⟩ := ih best m hex'
      have hma : score a ≤ m := not_lt.1 hcase
      refine ⟨a :: l1, r, l2, by rw [heq, List.cons_append], hres, hmr, ?_, ?_⟩
      · intro b hb
        rcases List.mem_cons.1 hb with hb | hb
        · subst hb; exact lt_of_le_of_lt hma hmr
        · exact hl1 b hb
      · intro b hb
        rcases List.mem_cons.1 hb with hb | hb
        · subst hb; exact le_of_lt (lt_of_le_of_lt hma hmr)
        · exact hall b (heq ▸ hb)

/-- A real square root of a nonnegative argument is at most one plus the
argument (used to bound UCB scores below `DBL_MAX`). -/
lemma sqrt_le_one_add (x : ℝ) (hx : 0 ≤ x) : Real.sqrt x ≤ 1 + x := by
  rw [Real.sqrt_le_iff]
  constructor
  · linarith
  · nlinarith [sq_nonneg x]

/-- A tried arm's UCB score is bounded: with per-arm mean rewards at most 12
(the shaped rewards of d-lora never exceed `1 + max(ξ, ζ, η) ≤ 12`) and the
total selection count at most `2^64` (it is a sum of machine counters), the
score stays strictly below `DBL_MAX`. -/
lemma ucbScore_lt_dblMax {α : Type} (rewards : α → ℝ) (counts : α → ℕ)
    (total : ℕ) (a : α) (hrew : rewards a ≤ 12) (hcnt : 1 ≤ counts a)
    (htot : total ≤ 2 ^ 64) : ucbScore rewards counts total a < dblMax := by
  have hlog0 : 0 ≤ Real.log ((total : ℝ) + 1) :=
    Real.log_nonneg (le_add_of_nonneg_left (Nat.cast_nonneg total))
  have hlog : Real.log ((total : ℝ) + 1) ≤ (total : ℝ) := by
    have := Real.log_le_sub_one_of_pos (x := (total : ℝ) + 1) (by positivity)
    linarith
  have hden : (2 : ℝ) ≤ 2 * (counts a : ℝ) := by
    have : (1 : ℝ) ≤ (counts a : ℝ) := by exact_mod_cast hcnt
    linarith
  have hdiv : Real.log ((total : ℝ) + 1) / (2 * (counts a : ℝ)) ≤ (total : ℝ) := by
    have h1 : Real.log ((total : ℝ) + 1) / (2 * (counts a : ℝ)) ≤
        Real.log ((total : ℝ) + 1) / 2 := by
      apply div_le_div_of_nonneg_left hlog0 (by norm_num) hden
    have h2 : Real.log ((total : ℝ) + 1) / 2 ≤ (total : ℝ) := by
      have := hlog
      linarith
    linarith
  have hsqrt : Real.sqrt (Real.log ((total : ℝ) + 1) / (2 * (counts a : ℝ))) ≤
      1 + (total : ℝ) :=
    le_trans (Real.sqrt_le_sqrt hdiv) (sqrt_le_one_add _ (Nat.cast_nonneg total))
  have htotR : (total : ℝ) ≤ 2 ^ 64 := by exact_mod_cast htot
  have hbound : ucbScore rewards counts total a ≤ 14 + 2 * 2 ^ 64 := by
    unfold ucbScore
    nlinarith
  have hbig : (14 : ℝ) + 2 * 2 ^ 64 < dblMax := by
    unfold dblMax
    have h1 : (14 : ℝ) + 2 * 2 ^ 64 < 2 ^ 67 := by norm_num
    have h2 : (2 : ℝ) ^ 67 ≤ 2 ^ 971 := by
      apply pow_le_pow_right₀ (by norm_num) (by norm_num)
    nlinarith [pow_pos (show (0:ℝ) < 2 by norm_num) 971,
      pow_pos (show (0:ℝ) < 2 by norm_num) 53]
  linarith


/-! ## Claim theorems -/

/-- C1: for every spreading factor in `{7,...,12}`, bandwidth `> 0` and payload
size, `CalculateToA` returns exactly the closed form
`preambleDuration + payloadSymbolCount * symbolDuration` of the specification,
and at `SF = 7`, `BW = 125000`, payload `20` bytes it evaluates exactly to
`884/15625` seconds (= 56.576 ms). -/
theorem C1_calculateToA_closed_form (sf : ℕ) (bw : ℚ) (payloadSize : ℕ)
    (h7 : 7 ≤ sf) (h12 : sf ≤ 12) (hbw : 0 < bw) :
    calculateToA sf bw payloadSize = timeOnAirSpec sf bw payloadSize ∧
    calculateToA 7 125000 20 = 884 / 15625 := by
  constructor
  · simp only [calculateToA, timeOnAirSpec]
    rw [max_comm]
  · have hc : (⌈(44 : ℚ) / 7⌉ : ℤ) = 7 := by
      rw [Int.ceil_eq_iff] <;> norm_num
    simp only [calculateToA]
    norm_num [hc]

/-- Witness for C1 at `SF = 7`, `BW = 125000` Hz, payload `20` bytes. -/
theorem C1_witness : calculateToA 7 125000 20 = timeOnAirSpec 7 125000 20 :=
  (C1_calculateToA_closed_form 7 125000 20 (by norm_num) (by norm_num)
    (by norm_num)).1

/-- C4: along every outcome sequence, the ADR-Lite ladder index stays within
`[0, |ladder| - 1]` (the lower bound holds because the index is a natural
number), a success never increases it, and a failure never decreases it. -/
theorem C4_adr_ladder_invariants (outcomes : List Bool) :
    adrRun outcomes ≤ adrParameterList.length - 1 ∧
    adrStep adrParameterList.length (adrRun outcomes) true ≤ adrRun outcomes ∧
    adrRun outcomes ≤ adrStep adrParameterList.length (adrRun outcomes) false := by
  have hlen : adrParameterList.length = 25 := by rfl
  have hstep : ∀ (idx : ℕ) (b : Bool), idx ≤ 24 → adrStep 25 idx b ≤ 24 := by
    intro idx b h
    cases b <;> simp [adrStep] <;> omega
  have hrun : ∀ (l : List Bool) (idx : ℕ), idx ≤ 24 →
      l.foldl (adrStep 25) idx ≤ 24 := by
    intro l
    induction l with
    | nil => intro idx h; simpa using h
    | cons b rest ih =>
      intro idx h
      simp only [List.foldl_cons]
      exact ih _ (hstep idx b h)
  have hb : adrRun outcomes ≤ 24 := by
    have : adrInitIndex = 24 := by rfl
    rw [adrRun, hlen, this]
    exact hrun outcomes 24 (by norm_num)
  refine ⟨by rw [hlen]; omega, ?_, ?_⟩
  · rw [hlen]
    simp [adrStep]
    omega
  · rw [hlen]
    simp [adrStep]
    omega

/-- C7 (amended): an algorithm name outside both supported sets is a fatal
setup error in d-lora-simulation (raised in the per-node construction loop,
before `Simulator::Run`, provided at least one node exists), while
lora-ucb1-simulation's setup accepts any name unchecked and the unknown name
is detected only by the dispatch inside `SelectAndTransmit`, i.e. inside the
first decision cycle after the simulation has started. -/
theorem C7_unknown_name_detection (algorithm : String) (numNodes : ℕ)
    (h1 : algorithm ∉ dloraKnownAlgorithms)
    (h2 : 1 ≤ numNodes)
    (h3 : algorithm ∉ ["UCB1-tuned", "Epsilon-Greedy", "ADR-Lite", "Fixed"]) :
    dloraSetup algorithm numNodes =
      Except.error ("Unknown algorithm: " ++ algorithm) ∧
    ucb1Setup algorithm numNodes =
      Except.ok ((List.range numNodes).map fun i => loRaDeviceInit i algorithm) ∧
    ucb1SelectDispatch algorithm =
      Except.error ("Algorithme inconnu: " ++ algorithm) := by
  simp only [List.mem_cons, List.not_mem_nil, or_false] at h3
  push_neg at h3
  obtain ⟨h31, h32, h33, h34⟩ := h3
  refine ⟨?_, rfl, ?_⟩
  · rw [dloraSetup, if_neg (by omega), if_neg h1]
  · rw [ucb1SelectDispatch, if_neg h31, if_neg h32, if_neg h33, if_neg h34]

/-- Counterexample for C7 as stated: with the unknown name `"Bogus"`,
lora-ucb1-simulation's entire pre-run setup succeeds (no fatal error is
reported before the simulation begins); the fatal error exists only in the
decision-cycle dispatch. -/
theorem C7_counterexample :
    ucb1Setup "Bogus" 1 = Except.ok [loRaDeviceInit 0 "Bogus"] ∧
    ucb1SelectDispatch "Bogus" = Except.error "Algorithme inconnu: Bogus" := by
  constructor
  · rfl
  · rfl

/-- Witness for C7 at the concrete unknown name `"Bogus"` with 50 nodes. -/
theorem C7_witness :
    dloraSetup "Bogus" 50 = Except.error "Unknown algorithm: Bogus" :=
  (C7_unknown_name_detection "Bogus" 50 (by decide) (by norm_num) (by decide)).1

/-- C8: with zero transmissions sent (zero energy, zero measurements, zero
recorded selections), every derived average — PDR, energy efficiency, average
time-on-air, average RSSI/SNR, the ToW per-device PDR, and the per-channel
mean reward — is exactly 0, with no division performed. -/
theorem C8_zero_denominator_metrics (received data toa total : ℚ)
    (successes : ℕ) (i : ℕ) :
    dloraPDR 0 received = 0 ∧
    dloraEnergyEfficiency 0 data = 0 ∧
    dloraAvgToA 0 toa = 0 ∧
    dloraAvgRSSI 0 total = 0 ∧
    dloraAvgSNR 0 total = 0 ∧
    towGetPDR 0 successes = 0 ∧
    meanReward [] i = 0 := by
  refine ⟨?_, ?_, ?_, ?_, ?_, ?_, ?_⟩ <;>
    simp [dloraPDR, dloraEnergyEfficiency, dloraAvgToA, dloraAvgRSSI,
      dloraAvgSNR, towGetPDR, meanReward, timesSelected]

/-- C10: a transmission on a channel not within `0.001` MHz of a receivable
channel is never received, regardless of power and of the random draw; and on
any channel the Bernoulli success probability is clamped into
`[0.2, 0.98]`, so a reception on a receivable channel is never certain and
never impossible. -/
theorem C10_gateway_receive (receivable : List ℚ) (numDevices : ℤ)
    (channel : ℚ) (tp : ℤ) (u : ℚ) :
    ((∀ rc ∈ receivable, ¬ |channel - rc| < 0.001) →
      receiveTransmission receivable numDevices channel tp u = false) ∧
    0.2 ≤ successProbability numDevices channel tp ∧
    successProbability numDevices channel tp ≤ 0.98 := by
  refine ⟨fun h => ?_, ?_, ?_⟩
  · have hcr : channelReceivable receivable channel = false := by
      simp only [channelReceivable, List.any_eq_false, decide_eq_true_eq]
      exact h
    simp [receiveTransmission, hcr]
  · simp only [successProbability]
    exact le_min (by norm_num) (le_max_left _ _)
  · simp only [successProbability]
    exact min_le_left _ _

/-- Witness for C10 at the unreceivable channel 900 MHz with power 5 dBm. -/
theorem C10_witness :
    receiveTransmission gReceivableChannels 10 900 5 (1/2) = false ∧
    (0.2 : ℚ) ≤ successProbability 10 900 5 := by
  constructor
  · refine (C10_gateway_receive gReceivableChannels 10 900 5 (1/2)).1 ?_
    intro rc hrc
    simp only [gReceivableChannels, List.mem_cons, List.not_mem_nil,
      or_false] at hrc
    rcases hrc with h | h | h <;> subst h <;> rw [not_lt] <;>
      rw [abs_of_nonpos (by norm_num)] <;> norm_num
  · exact (C10_gateway_receive gReceivableChannels 10 900 5 (1/2)).2.1

/-- Whenever some arm of the set has selection count 0, `DLoRaAgent::SelectArm`
returns an arm with selection count 0 (untried arms carry the `DBL_MAX`
sentinel score and beat every tried arm).  The two side conditions delimit the
reachable states of the program: shaped per-arm mean rewards never exceed 12,
and the total selection count is a sum of machine counters. -/
lemma selectArm_untried_priority {α : Type} [Inhabited α]
    (rewards : α → ℝ) (counts : α → ℕ) (armSet : List α)
    (huntried : ∃ a ∈ armSet, counts a = 0)
    (hrew : ∀ a ∈ armSet, rewards a ≤ 12)
    (htot : (armSet.map counts).sum ≤ 2 ^ 64) :
    counts (selectArm rewards counts armSet) = 0 := by
  obtain ⟨u, hu, hcu⟩ := huntried
  have hsu : ucbValue rewards counts ((armSet.map counts).sum) u = dblMax := by
    rw [ucbValue, if_pos hcu]
  have hdpos : (0 : ℝ) < dblMax := by
    unfold dblMax
    norm_num
  have hex : ∃ a ∈ armSet,
      (-1 : ℝ) < ucbValue rewards counts ((armSet.map counts).sum) a :=
    ⟨u, hu, by rw [hsu]; linarith⟩
  obtain ⟨l1, r, l2, heq, hres, hmr, hl1, hall⟩ :=
    selectArmAux_spec (ucbValue rewards counts ((armSet.map counts).sum))
      armSet (armSet.headD default) (-1) hex
  have hresult : selectArm rewards counts armSet = r := by
    simp only [selectArm]
    exact hres
  have hrarm : r ∈ armSet := by
    rw [heq]
    exact List.mem_append_right l1 (List.mem_cons_self r l2)
  rw [hresult]
  by_contra hne
  have h3 : dblMax ≤ ucbValue rewards counts ((armSet.map counts).sum) r := by
    rw [← hsu]
    exact hall u hu
  rw [ucbValue, if_neg hne] at h3
  have h2 : ucbScore rewards counts ((armSet.map counts).sum) r < dblMax :=
    ucbScore_lt_dblMax rewards counts _ r (hrew r hrarm)
      (Nat.one_le_iff_ne_zero.mpr hne) htot
  linarith

/-- The shared selection loop returns an untried channel whenever the scanned
list contains one, for every accumulator: the untried early return fires at
the first such channel, regardless of any score. -/
lemma channelLoop_mem_untried {untried : ℕ → Prop} [DecidablePred untried]
    (score : ℕ → ℝ) :
    ∀ (l : List ℕ) (acc : Option (ℕ × ℝ)), (∃ i ∈ l, untried i) →
      untried (channelLoop untried score l acc) := by
  intro l
  induction l with
  | nil =>
    rintro acc ⟨i, hi, -⟩
    exact absurd hi (List.not_mem_nil i)
  | cons j rest ih =>
    rintro acc ⟨i, hi, hiu⟩
    by_cases hj : untried j
    · rcases acc with - | ⟨b, m⟩
      · rw [channelLoop, if_pos hj]
        exact hj
      · rw [channelLoop, if_pos hj]
        exact hj
    · have hex : ∃ i ∈ rest, untried i := by
        rcases List.mem_cons.1 hi with h | h
        · subst h; exact absurd hiu hj
        · exact ⟨i, h, hiu⟩
      rcases acc with - | ⟨b, m⟩
      · rw [channelLoop, if_neg hj]
        exact ih _ hex
      · rw [channelLoop, if_neg hj]
        by_cases hs : score j > m
        · rw [if_pos hs]
          exact ih _ hex
        · rw [if_neg hs]
          exact ih _ hex

/-- Past its initialisation phase, `SelectChannelUCB` returns a channel with
selection count 0 whenever one exists. -/
lemma ucbChannelSelect_untried (K n : ℕ) (alpha : ℝ) (events : List QEvent)
    (h1 : ¬ n ≤ K) (h2 : ∃ i ∈ List.range K, timesSelected events i = 0) :
    timesSelected events (ucbChannelSelect K n alpha events) = 0 := by
  rw [ucbChannelSelect, if_neg h1]
  exact channelLoop_mem_untried (ucbChannelScore n alpha events)
    (List.range K) none h2

/-- C2 (amended): the untried-arm priority holds for the two cited UCB-style
selectors — `DLoRaAgent::SelectArm` (per dimension, under the reachable-state
bounds on rewards and counts) and `BanditAlgorithm::SelectChannelUCB` (past
its initialisation phase `n > K`) — but it is not a property of every policy
of the source: epsilon-greedy's exploitation branch ignores never-tried arms
(see the counterexample). -/
theorem C2_untried_priority_ucb {α : Type} [Inhabited α]
    (rewards : α → ℝ) (counts : α → ℕ) (armSet : List α)
    (K n : ℕ) (alpha : ℝ) (events : List QEvent)
    (huntried : ∃ a ∈ armSet, counts a = 0)
    (hrew : ∀ a ∈ armSet, rewards a ≤ 12)
    (htot : (armSet.map counts).sum ≤ 2 ^ 64)
    (hKn : K < n)
    (huntried2 : ∃ i, i < K ∧ timesSelected events i = 0) :
    counts (selectArm rewards counts armSet) = 0 ∧
    timesSelected events (ucbChannelSelect K n alpha events) = 0 := by
  constructor
  · exact selectArm_untried_priority rewards counts armSet huntried hrew htot
  · obtain ⟨i, hiK, hi0⟩ := huntried2
    exact ucbChannelSelect_untried K n alpha events (by omega)
      ⟨i, List.mem_range.mpr hiK, hi0⟩

/-- Counterexample for C2 as stated: epsilon-greedy is a bandit policy of the
source, yet in the state `egCount` (only the five pairs at power 1 dBm ever
tried) its exploitation branch (`u = 1/2 ≥ ε = 0.1`) returns the already
sampled pair `(920.6, 1)` — selection count 1 — while the untried pair
`(920.6, -3)` (count 0) is still available. -/
theorem C2_counterexample :
    egCount (selectTransmissionParametersEpsilonGreedy (1/10) (1/2) 0 0
      egCount (fun _ => 0)) = 1 ∧
    egCount (920.6, -3) = 0 := by
  constructor
  · rw [selectTransmissionParametersEpsilonGreedy, if_neg (by norm_num)]
    rw [epsilonGreedyExploit]
    norm_num [gChannels, gTransmissionPowers, epsilonGreedyExploitAux, egCount]
  · norm_num [egCount]

/-- Witness for C2: D-LoRa arm set `[7, 8]` with arm 7 tried once and arm 8
never, and a UCB channel state with channel 0 tried once and channel 1
never. -/
theorem C2_witness :
    (fun a : ℕ => if a = 7 then 1 else 0)
      (selectArm (fun _ : ℕ => (0 : ℝ))
        (fun a : ℕ => if a = 7 then 1 else 0) [7, 8]) = 0 ∧
    timesSelected [((0 : ℕ), (0 : ℝ), (0 : ℝ))]
      (ucbChannelSelect 2 3 1 [((0 : ℕ), (0 : ℝ), (0 : ℝ))]) = 0 :=
  C2_untried_priority_ucb (fun _ => (0 : ℝ))
    (fun a => if a = 7 then 1 else 0) [7, 8] 2 3 1
    [((0 : ℕ), (0 : ℝ), (0 : ℝ))]
    ⟨8, by norm_num, by norm_num⟩ (fun a _ => by norm_num) (by norm_num)
    (by norm_num) ⟨1, by norm_num, rfl⟩

/-- C3: once every arm has selection count at least 1 (and rewards are the
nonnegative values the program produces), `SelectArm` returns the first-listed
arm maximising `meanReward + 2 * sqrt(log(totalSelections + 1) /
(2 * selectionCount))`: the arm set splits around the returned arm, every
earlier arm scores strictly less, and no arm scores more. -/
theorem C3_selectArm_first_max {α : Type} [Inhabited α]
    (rewards : α → ℝ) (counts : α → ℕ) (armSet : List α)
    (hne : armSet ≠ [])
    (hcnt : ∀ a ∈ armSet, 1 ≤ counts a)
    (hrew : ∀ a ∈ armSet, 0 ≤ rewards a) :
    ∃ l1 l2, armSet = l1 ++ selectArm rewards counts armSet :: l2 ∧
      (∀ b ∈ l1, ucbScore rewards counts ((armSet.map counts).sum) b <
        ucbScore rewards counts ((armSet.map counts).sum)
          (selectArm rewards counts armSet)) ∧
      (∀ b ∈ armSet, ucbScore rewards counts ((armSet.map counts).sum) b ≤
        ucbScore rewards counts ((armSet.map counts).sum)
          (selectArm rewards counts armSet)) := by
  have hval : ∀ a ∈ armSet,
      ucbValue rewards counts ((armSet.map counts).sum) a =
        ucbScore rewards counts ((armSet.map counts).sum) a := by
    intro a ha
    rw [ucbValue, if_neg (by have := hcnt a ha; omega)]
  have hpos : ∀ a ∈ armSet,
      (-1 : ℝ) < ucbValue rewards counts ((armSet.map counts).sum) a := by
    intro a ha
    rw [hval a ha, ucbScore]
    have h1 := hrew a ha
    have h2 := Real.sqrt_nonneg
      (Real.log (((armSet.map counts).sum : ℝ) + 1) / (2 * (counts a : ℝ)))
    linarith
  obtain ⟨x, hx⟩ := List.exists_mem_of_ne_nil armSet hne
  obtain ⟨l1, r, l2, heq, hres, hmr, hl1, hall⟩ :=
    selectArmAux_spec (ucbValue rewards counts ((armSet.map counts).sum))
      armSet (armSet.headD default) (-1) ⟨x, hx, hpos x hx⟩
  have hresult : selectArm rewards counts armSet = r := by
    simp only [selectArm]
    exact hres
  have hrarm : r ∈ armSet := by
    rw [heq]
    exact List.mem_append_right l1 (List.mem_cons_self r l2)
  refine ⟨l1, l2, by rw [hresult]; exact heq, ?_, ?_⟩
  · intro b hb
    have hbarm : b ∈ armSet := by
      rw [heq]
      exact List.mem_append_left _ hb
    rw [hresult, ← hval b hbarm, ← hval r hrarm]
    exact hl1 b hb
  · intro b hb
    rw [hresult, ← hval b hb, ← hval r hrarm]
    exact hall b hb

/-- Witness for C3: arm set `[3, 4]`, each arm tried once, zero rewards. -/
theorem C3_witness :
    ∃ l1 l2, ([3, 4] : List ℕ) =
        l1 ++ selectArm (fun _ => (0 : ℝ)) (fun _ => 1) [3, 4] :: l2 ∧
      (∀ b ∈ l1, ucbScore (fun _ => (0 : ℝ)) (fun _ => 1)
          ((([3, 4] : List ℕ).map fun _ => 1).sum) b <
        ucbScore (fun _ => (0 : ℝ)) (fun _ => 1)
          ((([3, 4] : List ℕ).map fun _ => 1).sum)
          (selectArm (fun _ => (0 : ℝ)) (fun _ => 1) [3, 4])) ∧
      (∀ b ∈ ([3, 4] : List ℕ), ucbScore (fun _ => (0 : ℝ)) (fun _ => 1)
          ((([3, 4] : List ℕ).map fun _ => 1).sum) b ≤
        ucbScore (fun _ => (0 : ℝ)) (fun _ => 1)
          ((([3, 4] : List ℕ).map fun _ => 1).sum)
          (selectArm (fun _ => (0 : ℝ)) (fun _ => 1) [3, 4])) :=
  C3_selectArm_first_max (fun _ => (0 : ℝ)) (fun _ => 1) [3, 4]
    (by simp) (fun a _ => le_refl 1) (fun a _ => le_refl 0)

/-- C9: for a fixed arm (fixed mean reward and fixed selection count `n ≥ 1`),
the UCB score `meanReward + 2 * sqrt(log(t + 1) / (2 n))` is monotonically
non-decreasing in the total decision index `t`. -/
theorem C9_ucbScore_monotone {α : Type} (rewards : α → ℝ) (counts : α → ℕ)
    (a : α) (t1 t2 : ℕ) (hn : 1 ≤ counts a) (ht : t1 ≤ t2) :
    ucbScore rewards counts t1 a ≤ ucbScore rewards counts t2 a := by
  unfold ucbScore
  have hc : (1 : ℝ) ≤ (counts a : ℝ) := by exact_mod_cast hn
  have ht' : ((t1 : ℝ) + 1) ≤ ((t2 : ℝ) + 1) := by
    have : (t1 : ℝ) ≤ (t2 : ℝ) := by exact_mod_cast ht
    linarith
  have hlog : Real.log ((t1 : ℝ) + 1) ≤ Real.log ((t2 : ℝ) + 1) :=
    Real.log_le_log (by positivity) ht'
  have hden : (0 : ℝ) < 2 * (counts a : ℝ) := by linarith
  have hdiv : Real.log ((t1 : ℝ) + 1) / (2 * (counts a : ℝ)) ≤
      Real.log ((t2 : ℝ) + 1) / (2 * (counts a : ℝ)) :=
    div_le_div_of_nonneg_right hlog hden.le
  have hsq := Real.sqrt_le_sqrt hdiv
  linarith

/-- Witness for C9. -/
theorem C9_witness :
    ucbScore (fun _ : ℕ => (0 : ℝ)) (fun _ => 1) 0 0 ≤
      ucbScore (fun _ : ℕ => (0 : ℝ)) (fun _ => 1) 5 0 :=
  C9_ucbScore_monotone (fun _ => (0 : ℝ)) (fun _ => 1) 0 0 5
    (le_refl 1) (by norm_num)

lemma insertDesc_perm (x : ℚ) (l : List ℚ) : (insertDesc x l).Perm (x :: l) := by
  induction l with
  | nil => exact List.Perm.refl _
  | cons y ys ih =>
    rw [insertDesc]
    by_cases h : y ≤ x
    · rw [if_pos h]
    · rw [if_neg h]
      exact (ih.cons y).trans (List.Perm.swap x y ys)

lemma insertDesc_sorted (x : ℚ) (l : List ℚ)
    (h : l.Sorted (fun a b => b ≤ a)) :
    (insertDesc x l).Sorted (fun a b => b ≤ a) := by
  induction l with
  | nil => simp [insertDesc]
  | cons y ys ih =>
    rw [List.sorted_cons] at h
    obtain ⟨h1, h2⟩ := h
    rw [insertDesc]
    by_cases hyx : y ≤ x
    · rw [if_pos hyx, List.sorted_cons]
      refine ⟨?_, List.sorted_cons.mpr ⟨h1, h2⟩⟩
      intro b hb
      rcases List.mem_cons.1 hb with hb | hb
      · subst hb; exact hyx
      · exact le_trans (h1 b hb) hyx
    · rw [if_neg hyx, List.sorted_cons]
      refine ⟨?_, ih h2⟩
      intro b hb
      rcases List.mem_cons.1 ((insertDesc_perm x ys).mem_iff.1 hb) with hb' | hb'
      · subst hb'; exact le_of_lt (not_le.1 hyx)
      · exact h1 b hb'

lemma sortDesc_perm (l : List ℚ) : (sortDesc l).Perm l := by
  induction l with
  | nil => exact List.Perm.refl _
  | cons x xs ih =>
    rw [sortDesc]
    exact (insertDesc_perm x (sortDesc xs)).trans (ih.cons x)

lemma sortDesc_sorted (l : List ℚ) : (sortDesc l).Sorted (fun a b => b ≤ a) := by
  induction l with
  | nil => simp [sortDesc]
  | cons x xs ih =>
    rw [sortDesc]
    exact insertDesc_sorted x _ ih

/-- C6 (amended): with at least two arms, `CalculatePenalty` computes
`(p1 + p2)/2 - (p1 - p2)` (falling back to `0.1` when `p1 = p2`) where `p1`
and `p2` are the two leading entries of the descending-sorted per-arm rate
list — the list in which an arm with no data contributes rate `0` (not the two
highest rates among arms that have data).  The permutation and sortedness
conjuncts pin `p1, p2` as the two largest entries of that list. -/
theorem C6_penalty_two_highest (N R : List ℕ) (h2 : 2 ≤ N.length)
    (hlen : R.length = N.length) :
    (sortDesc (probabilities N R)).Perm (probabilities N R) ∧
    (sortDesc (probabilities N R)).Sorted (fun a b => b ≤ a) ∧
    calculatePenalty N R =
      (if (sortDesc (probabilities N R)).getD 0 0 =
          (sortDesc (probabilities N R)).getD 1 0 then 1 / 10
       else ((sortDesc (probabilities N R)).getD 0 0 +
          (sortDesc (probabilities N R)).getD 1 0) / 2 -
         ((sortDesc (probabilities N R)).getD 0 0 -
          (sortDesc (probabilities N R)).getD 1 0)) := by
  have hplen : (probabilities N R).length = N.length := by
    simp [probabilities, hlen]
  refine ⟨sortDesc_perm _, sortDesc_sorted _, ?_⟩
  simp only [calculatePenalty]
  rw [if_neg (by rw [hplen]; omega)]

/-- Counterexample for C6 as stated: with arm counts `N = [2, 0]` and success
counts `R = [1, 0]` only one arm has data, yet the penalty is `-1/4`, not the
fixed fallback constant `0.1` (the no-data arm is counted as rate 0 and the
formula is applied). -/
theorem C6_counterexample :
    ((List.filter (fun n => decide (0 < n)) [2, 0]).length < 2) ∧
    calculatePenalty [2, 0] [1, 0] = -(1 / 4) := by
  constructor
  · decide
  · norm_num [calculatePenalty, probabilities, sortDesc, insertDesc]

/-- Witness for C6 at `N = [1, 1]`, `R = [1, 0]`. -/
theorem C6_witness :
    (sortDesc (probabilities [1, 1] [1, 0])).Perm (probabilities [1, 1] [1, 0]) ∧
    (sortDesc (probabilities [1, 1] [1, 0])).Sorted (fun a b => b ≤ a) ∧
    calculatePenalty [1, 1] [1, 0] =
      (if (sortDesc (probabilities [1, 1] [1, 0])).getD 0 0 =
          (sortDesc (probabilities [1, 1] [1, 0])).getD 1 0 then 1 / 10
       else ((sortDesc (probabilities [1, 1] [1, 0])).getD 0 0 +
          (sortDesc (probabilities [1, 1] [1, 0])).getD 1 0) / 2 -
         ((sortDesc (probabilities [1, 1] [1, 0])).getD 0 0 -
          (sortDesc (probabilities [1, 1] [1, 0])).getD 1 0)) :=
  C6_penalty_two_highest [1, 1] [1, 0] (by simp) (by simp)

lemma discountedCount_one (i : ℕ) (events : List QEvent) :
    discountedCount 1 i events = (timesSelected events i : ℝ) := by
  induction events with
  | nil => simp [discountedCount, timesSelected]
  | cons e rest ih =>
    rw [discountedCount, ih]
    by_cases h : e.1 = i
    · rw [if_pos h]
      have hts : timesSelected (e :: rest) i = timesSelected rest i + 1 := by
        simp [timesSelected, List.filter_cons, h]
      rw [hts, one_pow]
      push_cast
      ring
    · rw [if_neg h]
      have hts : timesSelected (e :: rest) i = timesSelected rest i := by
        simp [timesSelected, List.filter_cons, h]
      rw [hts]
      ring

lemma discountedRewardSum_one (i : ℕ) (events : List QEvent) :
    discountedRewardSum 1 i events = rewardSum i events := by
  induction events with
  | nil => simp [discountedRewardSum, rewardSum]
  | cons e rest ih =>
    rw [discountedRewardSum, rewardSum, ih]
    by_cases h : e.1 = i
    · simp [h]
    · simp [h]

lemma discountedQualitySum_one (i : ℕ) (events : List QEvent) :
    discountedQualitySum 1 i events = qualitySum i events := by
  induction events with
  | nil => simp [discountedQualitySum, qualitySum]
  | cons e rest ih =>
    rw [discountedQualitySum, qualitySum, ih]
    by_cases h : e.1 = i
    · simp [h]
    · simp [h]

/-- C5 (amended): when both discount factors equal 1.0, the DQoC-A discounted
statistics coincide with the plain QoC-A statistics on every update history:
discounted per-arm counts equal the selection counts, discounted mean rewards
equal the running mean rewards, and discounted mean qualities equal the
running mean qualities.  (The channel selections themselves can still differ:
DQoC-A takes logarithms of the discounted total `W(n) = n - 1` while QoC-A
takes logarithms of the packet index `n`; see the counterexample.) -/
theorem C5_discounted_stats_reduce (events : List QEvent) (i : ℕ) :
    discountedCount 1 i events = (timesSelected events i : ℝ) ∧
    discountedMeanReward 1 events i = meanReward events i ∧
    discountedMeanQuality 1 1 events i = meanQuality events i := by
  refine ⟨discountedCount_one i events, ?_, ?_⟩
  · rw [discountedMeanReward, meanReward, discountedCount_one,
      discountedRewardSum_one]
    by_cases h : timesSelected events i = 0
    · simp [h]
    · have hpos : 0 < timesSelected events i := Nat.pos_of_ne_zero h
      have hposR : (0 : ℝ) < (timesSelected events i : ℝ) := by
        exact_mod_cast hpos
      rw [if_pos ⟨hposR, hpos⟩, if_neg h]
  · rw [discountedMeanQuality, meanQuality, discountedCount_one,
      discountedQualitySum_one]
    by_cases h : timesSelected events i = 0
    · simp [h]
    · have hpos : 0 < timesSelected events i := Nat.pos_of_ne_zero h
      have hposR : (0 : ℝ) < (timesSelected events i : ℝ) := by
        exact_mod_cast hpos
      rw [if_pos ⟨hposR, hpos, hposR⟩, if_neg h]

/-- Counterexample for C5 as stated: on the two-update history `qEventsCx`
(reachable with packet index `n = 3 = |history| + 1`), with `α = 0`, `β = 1`
and both discount factors equal to 1, QoC-A selects channel 0 but DQoC-A
selects channel 1 — QoC-A's quality penalty uses `ln 3` while DQoC-A's uses
`ln(W) = ln 2`, and `ln 2 < 0.8 < ln 3` flips the comparison. -/
theorem C5_counterexample :
    qocaSelect 2 3 0 1 qEventsCx = 0 ∧
    dqocaSelect 2 3 0 1 1 1 qEventsCx = 1 ∧
    dqocaSelect 2 3 0 1 1 1 qEventsCx ≠ qocaSelect 2 3 0 1 qEventsCx := by
  have h0 : timesSelected qEventsCx 0 = 1 := by rfl
  have h1 : timesSelected qEventsCx 1 = 1 := by rfl
  have hr0 : rewardSum 0 qEventsCx = 0 := by
    simp [qEventsCx, rewardSum]
  have hr1 : rewardSum 1 qEventsCx = 4 / 5 := by
    simp [qEventsCx, rewardSum]
  have hq0 : qualitySum 0 qEventsCx = 1 := by
    simp [qEventsCx, qualitySum]
  have hq1 : qualitySum 1 qEventsCx = 0 := by
    simp [qEventsCx, qualitySum]
  have hmr0 : meanReward qEventsCx 0 = 0 := by
    rw [meanReward, if_neg (by rw [h0]; norm_num), hr0, h0]
    norm_num
  have hmr1 : meanReward qEventsCx 1 = 4 / 5 := by
    rw [meanReward, if_neg (by rw [h1]; norm_num), hr1, h1]
    norm_num
  have hmq0 : meanQuality qEventsCx 0 = 1 := by
    rw [meanQuality, if_neg (by rw [h0]; norm_num), hq0, h0]
    norm_num
  have hmq1 : meanQuality qEventsCx 1 = 0 := by
    rw [meanQuality, if_neg (by rw [h1]; norm_num), hq1, h1]
    norm_num
  have hrange : List.range 2 = [0, 1] := rfl
  have hgm : gMax 2 (meanQuality qEventsCx) = 1 := by
    rw [gMax, hrange]
    simp only [List.foldl_cons, List.foldl_nil]
    rw [hmq0, hmq1]
    rw [if_pos (by norm_num : (1 : ℝ) > 0)]
    rw [if_neg (by norm_num : ¬((0 : ℝ) > 1))]
  have hlog2lt : Real.log 2 < 4 / 5 :=
    lt_trans Real.log_two_lt_d9 (by norm_num)
  have hlog3gt : (4 : ℝ) / 5 < Real.log 3 := by
    have h23 : Real.log (2 / 3) ≤ 2 / 3 - 1 :=
      Real.log_le_sub_one_of_pos (by norm_num)
    have h32 : Real.log (3 / 2) = -Real.log (2 / 3) := by
      rw [← Real.log_inv]
      norm_num
    have h3 : Real.log 3 = Real.log 2 + Real.log (3 / 2) := by
      rw [← Real.log_mul (by norm_num) (by norm_num)]
      norm_num
    have h2gt := Real.log_two_gt_d9
    rw [h3, h32]
    linarith
  have hqs0 : qocaScore 2 3 0 1 qEventsCx 0 = 0 := by
    simp only [qocaScore]
    rw [hgm, hmq0, hmr0, h0]
    rw [if_pos (by norm_num : (0 : ℝ) < 1)]
    norm_num
  have hqs1 : qocaScore 2 3 0 1 qEventsCx 1 = 4 / 5 - Real.log 3 := by
    simp only [qocaScore]
    rw [hgm, hmq1, hmr1, h1]
    rw [if_pos (by norm_num : (0 : ℝ) < 1)]
    push_cast
    ring_nf
  have hq : qocaSelect 2 3 0 1 qEventsCx = 0 := by
    simp only [qocaSelect]
    rw [if_neg (by norm_num), hrange]
    simp only [channelLoop]
    rw [if_neg (by rw [h0]; norm_num), if_neg (by rw [h1]; norm_num),
      if_neg (by rw [hqs0, hqs1]; intro hlt; simp at hlt; linarith)]
  have hdc0 : discountedCount 1 0 qEventsCx = 1 := by
    rw [discountedCount_one, h0]
    norm_num
  have hdc1 : discountedCount 1 1 qEventsCx = 1 := by
    rw [discountedCount_one, h1]
    norm_num
  have hW : totalDiscountedCount 1 2 qEventsCx = 2 := by
    rw [totalDiscountedCount, Finset.sum_range_succ, Finset.sum_range_succ,
      Finset.sum_range_zero, hdc0, hdc1]
    norm_num
  have hdmr0 : discountedMeanReward 1 qEventsCx 0 = 0 := by
    rw [discountedMeanReward,
      if_pos ⟨by rw [hdc0]; norm_num, by rw [h0]; norm_num⟩,
      discountedRewardSum_one, hr0, hdc0]
    norm_num
  have hdmr1 : discountedMeanReward 1 qEventsCx 1 = 4 / 5 := by
    rw [discountedMeanReward,
      if_pos ⟨by rw [hdc1]; norm_num, by rw [h1]; norm_num⟩,
      discountedRewardSum_one, hr1, hdc1]
    norm_num
  have hdmq0 : discountedMeanQuality 1 1 qEventsCx 0 = 1 := by
    rw [discountedMeanQuality,
      if_pos ⟨by rw [hdc0]; norm_num, by rw [h0]; norm_num, by rw [hdc0]; norm_num⟩,
      discountedQualitySum_one, hq0, hdc0]
    norm_num
  have hdmq1 : discountedMeanQuality 1 1 qEventsCx 1 = 0 := by
    rw [discountedMeanQuality,
      if_pos ⟨by rw [hdc1]; norm_num, by rw [h1]; norm_num, by rw [hdc1]; norm_num⟩,
      discountedQualitySum_one, hq1, hdc1]
    norm_num
  have hgmd : gMax 2 (discountedMeanQuality 1 1 qEventsCx) = 1 := by
    rw [gMax, hrange]
    simp only [List.foldl_cons, List.foldl_nil]
    rw [hdmq0, hdmq1]
    rw [if_pos (by norm_num : (1 : ℝ) > 0)]
    rw [if_neg (by norm_num : ¬((0 : ℝ) > 1))]
  have hds0 : dqocaScore 2 0 1 1 1 qEventsCx 0 = 0 := by
    simp only [dqocaScore]
    rw [hgmd, hdmq0, hdmr0, hdc0, hW]
    rw [if_pos (by norm_num : (0 : ℝ) < 1)]
    norm_num
  have hds1 : dqocaScore 2 0 1 1 1 qEventsCx 1 = 4 / 5 - Real.log 2 := by
    simp only [dqocaScore]
    rw [hgmd, hdmq1, hdmr1, hdc1, hW]
    rw [if_pos (by norm_num : (0 : ℝ) < 1)]
    ring_nf
  have hd : dqocaSelect 2 3 0 1 1 1 qEventsCx = 1 := by
    simp only [dqocaSelect]
    rw [if_neg (by norm_num), hrange]
    simp only [channelLoop]
    rw [if_neg (by rw [hdc0]; norm_num), if_neg (by rw [hdc1]; norm_num),
      if_pos (by rw [hds0, hds1]; simp; linarith)]
  exact ⟨hq, hd, by rw [hq, hd]; norm_num⟩
